import Mathlib

/-!
# QtListWidget: row store, lazy row construction, row painting and the bridge to
the subject list

A shallow embedding of `src/guiQt/QtListWidget.cpp`.

* `PyObject*` and `PyQtGuiObject*` values are non-null object addresses, modelled as
  natural numbers; a nullable pointer is an `Option`.
* `std::vector<ListItem*> items` is a `List ListItem`: position in the list is the
  vector index.
* A C `int` is an `Int`.  A non-negative `int` converted to `size_t` keeps its
  value (`Int.toNat`); a `size_t` converted to `int` is reduced to 32 bits
  (`sizeToInt`).
* `dispatch_sync_main_queue` runs its block to completion before returning, so the
  block is modelled as executed in place.
* Every Qt call the model makes (`beginInsertRows`, `endInsertRows`, ...) and every
  `delete` of a row is recorded, in program order, in a list of `Effect`s.
* The control factory, the two build hooks and the control's own methods are
  declared outside this file (`Builders.hpp`, `PyQtGuiObject`); they are taken as
  parameters (`Collab`) acting on an arbitrary world state, and every call to them
  and to the painter is recorded, in program order, in a list of `Call`s.
-/

namespace QtListWidget

/-! ## Machine integers -/

/-- Largest value of a 32-bit `int`. -/
def INT_MAX : Int := 2147483647

/-- Smallest value of a 32-bit `int`. -/
def INT_MIN : Int := -2147483648

/-- The value is representable as a C `int`. -/
def IsCInt (z : Int) : Prop := INT_MIN ≤ z ∧ z ≤ INT_MAX

instance (z : Int) : Decidable (IsCInt z) := by
  unfold IsCInt; exact inferInstance

/-- Conversion of a `size_t` value to `int`: the low 32 bits, read as two's complement. -/
def sizeToInt (n : Nat) : Int :=
  if (n : Int) % 4294967296 ≤ INT_MAX then (n : Int) % 4294967296
  else (n : Int) % 4294967296 - 4294967296

/-! ## Data model -/

/-- A `PyObject*` that is not NULL: the address of a subject item. -/
abbrev PyObject := Nat

/-- A `PyQtGuiObject*` that is not NULL: the address of a control object. -/
abbrev PyQtGuiObject := Nat

/-- The struct `ListItem`: the subject item and the lazily built control. -/
structure ListItem where
  subjectObject : PyObject
  control : Option PyQtGuiObject
deriving DecidableEq, Repr

/-- The constructor `ListItem(PyObject* obj)`: `control(NULL)`. -/
def ListItem.new (obj : PyObject) : ListItem :=
  { subjectObject := obj, control := none }

/-- What `ItemDelegate::paint` and `getOwnerWidth` read from the owning
`QtListWidget` once the weak reference has resolved. -/
structure OwnerWidget where
  control : Option PyQtGuiObject
  width : Int
deriving DecidableEq, Repr

/-- The class `QtListWidget::ListModel`.  `listWidget` is what the weak reference to
the owner currently resolves to. -/
structure ListModel where
  listWidget : Option OwnerWidget
  items : List ListItem
deriving DecidableEq, Repr

/-- A `QModelIndex` as the model reads it: `row()` and `column()`. -/
structure QModelIndex where
  row : Int
  column : Int
deriving DecidableEq, Repr

/-- The role `Qt::DisplayRole`. -/
def DisplayRole : Int := 0

/-- Calls made on the Qt model base class and destructions of rows, in program order. -/
inductive Effect where
  | beginInsertRows (first last : Int)
  | endInsertRows
  | beginRemoveRows (first last : Int)
  | endRemoveRows
  | beginResetModel
  | endResetModel
  | deleteItem (item : ListItem)
  | dataChanged (topLeft bottomRight : QModelIndex)
deriving DecidableEq, Repr

/-! ## ListModel operations -/

/-- The method `ListModel::rowCount` for the root (invalid) parent index. -/
def ListModel.rowCount (m : ListModel) : Int :=
  sizeToInt m.items.length

/-- The method `ListModel::data`: the row's `ListItem*` wrapped in a `QVariant`, or an
invalid `QVariant` (`none`). -/
def ListModel.data (m : ListModel) (index : QModelIndex) (role : Int) : Option ListItem :=
  if index.column ≠ 0 then none
  else if role ≠ DisplayRole then none
  else
    let idx := index.row
    if idx < 0 then none
    else if h : idx.toNat ≥ m.items.length then none
    else
      have hlt : idx.toNat < m.items.length := Nat.lt_of_not_ge h
      some m.items[idx.toNat]

/-- The method `ListModel::push_back`. -/
def ListModel.push_back (m : ListModel) (value : PyObject) : ListModel × List Effect :=
  let idx := sizeToInt m.items.length
  ({ m with items := m.items ++ [ListItem.new value] },
   [Effect.beginInsertRows idx idx, Effect.endInsertRows])

/-- The call `items.insert(items.begin() + idx, x)` of `std::vector`. -/
def vectorInsert (items : List ListItem) (idx : Nat) (x : ListItem) : List ListItem :=
  items.take idx ++ x :: items.drop idx

/-- The call `items.erase(items.begin() + idx)` of `std::vector`. -/
def vectorErase (items : List ListItem) (idx : Nat) : List ListItem :=
  items.take idx ++ items.drop (idx + 1)

/-- The index `ListModel::insert` uses after its two clamping statements. -/
def clampInsertIdx (m : ListModel) (_idx : Int) : Int :=
  let idx := _idx
  let idx := if idx < 0 then 0 else idx
  let idx := if idx.toNat > m.items.length then sizeToInt m.items.length else idx
  idx

/-- The method `ListModel::insert`. -/
def ListModel.insert (m : ListModel) (_idx : Int) (value : PyObject) :
    ListModel × List Effect :=
  let idx := clampInsertIdx m _idx
  ({ m with items := vectorInsert m.items idx.toNat (ListItem.new value) },
   [Effect.beginInsertRows idx idx, Effect.endInsertRows])

/-- The method `ListModel::remove`. -/
def ListModel.remove (m : ListModel) (idx : Int) : ListModel × List Effect :=
  if idx < 0 then (m, [])
  else if h : idx.toNat ≥ m.items.length then (m, [])
  else
    have hlt : idx.toNat < m.items.length := Nat.lt_of_not_ge h
    let item := m.items[idx.toNat]
    ({ m with items := vectorErase m.items idx.toNat },
     [Effect.beginRemoveRows idx idx, Effect.deleteItem item, Effect.endRemoveRows])

/-- The method `ListModel::clear`. -/
def ListModel.clear (m : ListModel) : ListModel × List Effect :=
  ({ m with items := [] },
   [Effect.beginResetModel] ++ m.items.map Effect.deleteItem ++ [Effect.endResetModel])

/-! ## Sequences of store operations -/

/-- One mutation of the store, as issued by the bridge. -/
inductive Op where
  | pushBack (value : PyObject)
  | insert (index : Int) (value : PyObject)
  | remove (index : Int)
  | clear
deriving DecidableEq, Repr

/-- The index argument of the operation, when it has one, is a C `int`. -/
def Op.WellTyped : Op → Prop
  | Op.pushBack _ => True
  | Op.insert index _ => IsCInt index
  | Op.remove index => IsCInt index
  | Op.clear => True

instance (op : Op) : Decidable op.WellTyped := by
  cases op <;> unfold Op.WellTyped <;> exact inferInstance

/-- The store after one operation. -/
def ListModel.applyOp (m : ListModel) : Op → ListModel
  | Op.pushBack value => (m.push_back value).1
  | Op.insert index value => (m.insert index value).1
  | Op.remove index => (m.remove index).1
  | Op.clear => m.clear.1

/-- The store after a sequence of operations, first operation first. -/
def ListModel.run (m : ListModel) (ops : List Op) : ListModel :=
  ops.foldl ListModel.applyOp m

/-- The reference list of the specification after one operation: insert at the
clamped index, delete only when the index is in range, empty on clear. -/
def refStep (xs : List PyObject) : Op → List PyObject
  | Op.pushBack value => xs ++ [value]
  | Op.insert index value => xs.insertIdx (min (max index 0) (xs.length : Int)).toNat value
  | Op.remove index =>
    if 0 ≤ index ∧ index < (xs.length : Int) then xs.eraseIdx index.toNat else xs
  | Op.clear => []

/-- The reference list of the specification after a sequence of operations replayed
on the empty list. -/
def refRun (ops : List Op) : List PyObject :=
  ops.foldl refStep []

/-- The tally of the specification: the number of inserts since the last clear and
the number of in-range removes since the last clear (a remove is in range when its
index addresses one of the rows counted so far). -/
def tallyStep (t : Nat × Nat) : Op → Nat × Nat
  | Op.pushBack _ => (t.1 + 1, t.2)
  | Op.insert _ _ => (t.1 + 1, t.2)
  | Op.remove index =>
    if 0 ≤ index ∧ index < ((t.1 - t.2 : Nat) : Int) then (t.1, t.2 + 1) else t
  | Op.clear => (0, 0)

/-- The tally of a whole sequence of operations. -/
def tally (ops : List Op) : Nat × Nat :=
  ops.foldl tallyStep (0, 0)

/-! ## Initial fill: the copy loop -/

/-- The `while(true)` loop of the initial fill: `yielded` are the items that the
successive `PyIter_Next` calls return before the first NULL; each is handed to
`push_back` before the next one is fetched. -/
def copyLoop (m : ListModel) : List PyObject → ListModel × List Effect
  | [] => (m, [])
  | listIterItem :: rest =>
    let r := m.push_back listIterItem
    let r2 := copyLoop r.1 rest
    (r2.1, r.2 ++ r2.2)

/-! ## Lazy construction and painting -/

/-- The type `Vec`: a size or position. -/
structure Vec where
  x : Int
  y : Int
deriving DecidableEq, Repr

/-- A `QRect`. -/
structure QRect where
  x : Int
  y : Int
  width : Int
  height : Int
deriving DecidableEq, Repr

/-- The palette brushes `paint` uses. -/
inductive Brush where
  | highlight
  | alternateBase
  | dark
deriving DecidableEq, Repr

/-- Calls to the collaborators and to the painter, in program order.  Opacity is in
percent (`1` is `100`, `0.8` is `80`); `render` is the call
`widget->render(painter, QPoint(x, y), QRegion(0, 0, w, h), QWidget::DrawChildren)` on
the widget of the given control. -/
inductive Call where
  | createControlObject (subject : PyObject) (parent : PyQtGuiObject)
  | buildControlObject_pre (control : PyQtGuiObject)
  | buildControlObject_post (control : PyQtGuiObject)
  | get_size (control : PyQtGuiObject)
  | set_size (control : PyQtGuiObject) (size : Vec)
  | layout (control : PyQtGuiObject)
  | setOpacity (percent : Nat)
  | fillRect (rect : QRect) (brush : Brush)
  | setAutoFillBackground (control : PyQtGuiObject) (enabled : Bool)
  | render (control : PyQtGuiObject) (x y w h : Int)
deriving DecidableEq, Repr

/-- The call is the widget render. -/
def Call.isRender : Call → Bool
  | Call.render _ _ _ _ _ => true
  | _ => false

/-- The call is the control factory. -/
def Call.isFactory : Call → Bool
  | Call.createControlObject _ _ => true
  | _ => false

/-- The call is one of the two build hooks. -/
def Call.isInitHook : Call → Bool
  | Call.buildControlObject_pre _ => true
  | Call.buildControlObject_post _ => true
  | _ => false

/-- The collaborators `setupControl` and `paint` call, over a world state `W` that
they may read and change: the factory `guiQt_createControlObject`, the hooks
`_buildControlObject_pre` and `_buildControlObject_post`, the control's `get_size`,
`set_size` and `layout`, and whether the weak reference `control->widget` resolves. -/
structure Collab (W : Type) where
  guiQt_createControlObject : W → PyObject → PyQtGuiObject → Option PyQtGuiObject × W
  _buildControlObject_pre : W → PyQtGuiObject → Bool × W
  _buildControlObject_post : W → PyQtGuiObject → Bool × W
  get_size : W → PyQtGuiObject → Vec × W
  set_size : W → PyQtGuiObject → Vec → W
  layout : W → PyQtGuiObject → W
  widgetResolves : W → PyQtGuiObject → Bool

/-- The world state together with the record of calls made so far. -/
structure Ctx (W : Type) where
  world : W
  calls : List Call

/-- Record calls. -/
def Ctx.log {W : Type} (s : Ctx W) (cs : List Call) : Ctx W :=
  { s with calls := s.calls ++ cs }

/-- The last three statements of `ListItem::setupControl`: read the control's
height, set its size to `(width, h)`, lay it out. -/
def resizeAndLayout {W : Type} (E : Collab W) (width : Int) (control : PyQtGuiObject)
    (s : Ctx W) : Ctx W :=
  let r := E.get_size s.world control
  let h := r.1.y
  let w2 := E.set_size r.2 control { x := width, y := h }
  let w3 := E.layout w2 control
  { world := w3,
    calls := s.calls ++ [Call.get_size control,
      Call.set_size control { x := width, y := h }, Call.layout control] }

/-- The method `ListItem::setupControl`. -/
def ListItem.setupControl {W : Type} (E : Collab W) (width : Int) (parent : PyQtGuiObject)
    (item : ListItem) (s : Ctx W) : ListItem × Ctx W :=
  match item.control with
  | some control => (item, resizeAndLayout E width control s)
  | none =>
    let r := E.guiQt_createControlObject s.world item.subjectObject parent
    let s1 : Ctx W :=
      { world := r.2, calls := s.calls ++ [Call.createControlObject item.subjectObject parent] }
    match r.1 with
    | none => ({ item with control := none }, s1)
    | some control =>
      let item1 : ListItem := { item with control := some control }
      let rpre := E._buildControlObject_pre s1.world control
      let s2 : Ctx W :=
        { world := rpre.2, calls := s1.calls ++ [Call.buildControlObject_pre control] }
      if !rpre.1 then (item1, s2)
      else
        let rpost := E._buildControlObject_post s2.world control
        let s3 : Ctx W :=
          { world := rpost.2, calls := s2.calls ++ [Call.buildControlObject_post control] }
        if !rpost.1 then (item1, s3)
        else (item1, resizeAndLayout E width control s3)

/-- What `paint` reads from its `QStyleOptionViewItem`: the row rectangle, whether
`state` has `QStyle::State_Selected`, whether `features` has `Alternate`. -/
structure QStyleOptionViewItem where
  rect : QRect
  selected : Bool
  alternate : Bool
deriving DecidableEq, Repr

/-- The label `error:` of `ItemDelegate::paint`. -/
def paintError {W : Type} (option : QStyleOptionViewItem) (s : Ctx W) : Ctx W :=
  s.log [Call.fillRect option.rect Brush.dark]

/-- The method `ItemDelegate::paint`.  The row's `ListItem` is changed in place by
`setupControl`, so the model is returned too. -/
def ItemDelegate.paint {W : Type} (E : Collab W) (listModel : ListModel)
    (option : QStyleOptionViewItem) (index : QModelIndex) (s : Ctx W) : ListModel × Ctx W :=
  match listModel.data index DisplayRole with
  | none => (listModel, paintError option s)
  | some item =>
    let s1 := s.log [Call.setOpacity 100]
    let s2 :=
      if option.selected then s1.log [Call.fillRect option.rect Brush.highlight]
      else if option.alternate then s1.log [Call.fillRect option.rect Brush.alternateBase]
      else s1
    match listModel.listWidget with
    | none => (listModel, paintError option s2)
    | some listWidget =>
      match listWidget.control with
      | none => (listModel, paintError option s2)
      | some parent =>
        let r := item.setupControl E listWidget.width parent s2
        let listModel1 : ListModel :=
          { listModel with items := listModel.items.set index.row.toNat r.1 }
        match r.1.control with
        | none => (listModel1, paintError option r.2)
        | some control =>
          if !E.widgetResolves r.2.world control then (listModel1, paintError option r.2)
          else
            (listModel1, r.2.log [Call.setOpacity 80,
              Call.setAutoFillBackground control false,
              Call.render control option.rect.x option.rect.y
                option.rect.width option.rect.height])

/-- Collaborators with fixed answers, over a trivial world: the factory returns
`made`, the hooks return `pre` and `post`, every control reports the size `size`, and
`control->widget` resolves iff `alive`. -/
def fixedCollab (made : Option PyQtGuiObject) (pre post alive : Bool) (size : Vec) :
    Collab Unit where
  guiQt_createControlObject := fun w _ _ => (made, w)
  _buildControlObject_pre := fun w _ => (pre, w)
  _buildControlObject_post := fun w _ => (post, w)
  get_size := fun w _ => (size, w)
  set_size := fun w _ _ => w
  layout := fun w _ => w
  widgetResolves := fun _ _ => alive

/-- A store of three rows, none of them built, whose owner resolves. -/
def exampleModel : ListModel :=
  { listWidget := some { control := some 1, width := 300 },
    items := [ListItem.new 10, ListItem.new 11, ListItem.new 12] }

/-- A style option for the row rectangle of row 1: not selected, alternate row. -/
def exampleOption : QStyleOptionViewItem :=
  { rect := { x := 0, y := 22, width := 298, height := 22 },
    selected := false, alternate := true }

/-! ## Size hints, child iteration, layout refresh -/

/-- A `QSize`. -/
structure QSize where
  width : Int
  height : Int
deriving DecidableEq, Repr

/-- The default-constructed `QSize()`: an invalid size, width and height `-1`. -/
def QSize.invalid : QSize :=
  { width := -1, height := -1 }

/-- The method `ListModel::getOwnerWidth`.  Widget widths are not negative, so the
caller's `- 2` stays inside `int`. -/
def ListModel.getOwnerWidth (m : ListModel) : Int :=
  match m.listWidget with
  | none => 200
  | some widget => widget.width

/-- The method `ListModel::sizeHint`; the style option is not read. -/
def ListModel.sizeHint (m : ListModel) (_option : QStyleOptionViewItem)
    (index : QModelIndex) : QSize :=
  if index.column ≠ 0 then QSize.invalid
  else { width := m.getOwnerWidth - 2, height := 22 }

/-- The method `ItemDelegate::sizeHint`. -/
def ItemDelegate.sizeHint (listModel : ListModel) (option : QStyleOptionViewItem)
    (index : QModelIndex) : QSize :=
  listModel.sizeHint option index

/-- The loop of `ListModel::controlChildIter` over the rows.  The callback `cb` acts on
a state of its own and returns the value it leaves in `stop`; the result lists, in
order, each control the callback was invoked on together with that value. -/
def controlChildIterLoop {σ : Type} (cb : σ → PyQtGuiObject → σ × Bool) :
    List ListItem → σ → σ × List (PyQtGuiObject × Bool)
  | [], st => (st, [])
  | item :: rest, st =>
    match item.control with
    | none => controlChildIterLoop cb rest st
    | some control =>
      let r := cb st control
      if r.2 then (r.1, [(control, true)])
      else
        let r2 := controlChildIterLoop cb rest r.1
        (r2.1, (control, false) :: r2.2)

/-- The method `ListModel::controlChildIter`. -/
def ListModel.controlChildIter {σ : Type} (m : ListModel)
    (cb : σ → PyQtGuiObject → σ × Bool) (st : σ) : σ × List (PyQtGuiObject × Bool) :=
  controlChildIterLoop cb m.items st

/-- The method `ListModel::updateLayout`. -/
def ListModel.updateLayout (m : ListModel) : ListModel × List Effect :=
  if m.items.isEmpty then (m, [])
  else
    (m, [Effect.dataChanged { row := 0, column := 0 }
      { row := sizeToInt (m.items.length - 1), column := 0 }])

/-! ## The bridge: initial fill task and event callbacks

The interpreter is outside this file.  Each call into it is recorded with its outcome,
in program order, in a list of `BridgeCall`s, and the outcomes of one run are given
by a `FillOutcome`.  The guard `PyScopedGIL` and the reference counting are not
modelled; the lock of the model is `list.lock`. -/

/-- The three events of the subject list. -/
inductive EvName where
  | onInsert
  | onRemove
  | onClear
deriving DecidableEq, Repr

/-- What the bridge does, in program order.  `storeOp` is a block run through
`dispatch_sync_main_queue` on the `ListModel`; `scrollToBottom` carries whether it is
run through `dispatch_sync_main_queue`; the others are calls into the interpreter,
with whether they succeeded. -/
inductive BridgeCall where
  | getAttrLock (ok : Bool)
  | lockEnter (ok : Bool)
  | lockExit (ok : Bool)
  | getIter (ok : Bool)
  | iterNext (item : Option PyObject)
  | storeOp (op : Op)
  | scrollToBottom (marshaled : Bool)
  | registerEv (evName : EvName)
  | getControl (ok : Bool)
  | newFunctionWrapper (evName : EvName) (ok : Bool)
  | getAttrEvent (evName : EvName) (ok : Bool)
  | register (evName : EvName) (ok : Bool)
  | setAttr (evName : EvName) (ok : Bool)
deriving DecidableEq, Repr

/-- The call is `lock.__exit__`. -/
def BridgeCall.isLockExit : BridgeCall → Bool
  | BridgeCall.lockExit _ => true
  | _ => false

/-- The call is an invocation of `registerEv`. -/
def BridgeCall.isRegisterEv : BridgeCall → Bool
  | BridgeCall.registerEv _ => true
  | _ => false

/-- The call is a block marshaled onto the UI thread. -/
def BridgeCall.isMarshal : BridgeCall → Bool
  | BridgeCall.storeOp _ => true
  | BridgeCall.scrollToBottom marshaled => marshaled
  | _ => false

/-- The call takes or looks up the subject lock. -/
def BridgeCall.isLockAcquire : BridgeCall → Bool
  | BridgeCall.getAttrLock _ => true
  | BridgeCall.lockEnter _ => true
  | _ => false

/-- The fields of the `QtListWidget` that the bridge uses once the weak
self-reference has resolved. -/
structure ListWidgetState where
  listModel : ListModel
  autoScrolldown : Bool
deriving DecidableEq, Repr

/-- The method `QtListWidget::childIter`. -/
def childIter {σ : Type} (self : ListWidgetState) (cb : σ → PyQtGuiObject → σ × Bool)
    (st : σ) : σ × List (PyQtGuiObject × Bool) :=
  self.listModel.controlChildIter cb st

/-- The outcomes of the interpreter calls of one `registerEv` invocation:
`self->getControl()`, `newFunctionWrapper`, the event lookup, `event.register`, and
`PyObject_SetAttrString` returning `0`. -/
structure RegOutcome where
  control : Option PyQtGuiObject
  callbackWrapper : Bool
  event : Bool
  res : Bool
  setAttr : Bool
deriving DecidableEq, Repr

/-- The outcomes of the interpreter calls of one run of the initial fill task:
`list` non-NULL, `list.lock` found, `__enter__` succeeded, `PyObject_GetIter` (the
items the successive `PyIter_Next` calls yield and whether the final NULL came with an
error), the three registrations, and `__exit__` succeeded. -/
structure FillOutcome where
  list : Bool
  lock : Bool
  lockEnterRes : Bool
  listIter : Option (List PyObject × Bool)
  onInsert : RegOutcome
  onRemove : RegOutcome
  onClear : RegOutcome
  lockExitRes : Bool
deriving DecidableEq, Repr

/-- The outcomes for the registration of the given event. -/
def FillOutcome.reg (o : FillOutcome) : EvName → RegOutcome
  | EvName.onInsert => o.onInsert
  | EvName.onRemove => o.onRemove
  | EvName.onClear => o.onClear

/-- The lambda `registerEv` of the initial fill task. -/
def registerEv (evName : EvName) (r : RegOutcome) : List BridgeCall :=
  [BridgeCall.registerEv evName, BridgeCall.getControl r.control.isSome] ++
  match r.control with
  | none => []
  | some _ =>
    [BridgeCall.newFunctionWrapper evName r.callbackWrapper] ++
    if !r.callbackWrapper then []
    else
      [BridgeCall.getAttrEvent evName r.event] ++
      if !r.event then []
      else
        [BridgeCall.register evName r.res] ++
        if !r.res then []
        else [BridgeCall.setAttr evName r.setAttr]

/-- The calls of the `while(true)` loop of the initial fill, for the yielded items:
each item is fetched and handed to `push_back`; the last `PyIter_Next` returns NULL. -/
def fillLoopCalls : List PyObject → List BridgeCall
  | [] => [BridgeCall.iterNext none]
  | listIterItem :: rest =>
    BridgeCall.iterNext (some listIterItem) ::
      BridgeCall.storeOp (Op.pushBack listIterItem) :: fillLoopCalls rest

/-- The label `finalInitialFill:` of the initial fill task. -/
def finalInitialFill (lockEnterRes : Bool) (o : FillOutcome) : List BridgeCall :=
  if lockEnterRes then [BridgeCall.lockExit o.lockExitRes] else []

/-- The background task of the constructor `QtListWidget::QtListWidget` (the initial
fill).  `self` is what the weak self-reference resolves to when the task starts. -/
def initialFill (self : Option ListWidgetState) (o : FillOutcome) :
    Option ListWidgetState × List BridgeCall :=
  match self with
  | none => (none, finalInitialFill false o)
  | some st =>
    if !o.list then (some st, finalInitialFill false o)
    else if !o.lock then
      (some st, [BridgeCall.getAttrLock false] ++ finalInitialFill false o)
    else if !o.lockEnterRes then
      (some st, [BridgeCall.getAttrLock true, BridgeCall.lockEnter false]
        ++ finalInitialFill false o)
    else
      match o.listIter with
      | none =>
        (some st, [BridgeCall.getAttrLock true, BridgeCall.lockEnter true,
          BridgeCall.getIter false] ++ finalInitialFill true o)
      | some run =>
        let st1 : ListWidgetState :=
          { st with listModel := (copyLoop st.listModel run.1).1 }
        (some st1,
          [BridgeCall.getAttrLock true, BridgeCall.lockEnter true, BridgeCall.getIter true]
          ++ fillLoopCalls run.1
          ++ (if st1.autoScrolldown then [BridgeCall.scrollToBottom false] else [])
          ++ registerEv EvName.onInsert o.onInsert
          ++ registerEv EvName.onRemove o.onRemove
          ++ registerEv EvName.onClear o.onClear
          ++ finalInitialFill true o)

/-- What a callback returns to the interpreter: `NULL` (an error) or `Py_None`. -/
inductive PyResult where
  | null
  | pyNone
deriving DecidableEq, Repr

/-- The callback registered for `onInsert`.  `parsed` is the outcome of
`PyArg_ParseTupleAndKeywords` on the arguments, were it called. -/
def onInsert (self : Option ListWidgetState) (parsed : Option (Int × PyObject)) :
    Option ListWidgetState × List BridgeCall × PyResult :=
  match self with
  | none => (none, [], PyResult.pyNone)
  | some st =>
    match parsed with
    | none => (some st, [], PyResult.null)
    | some (idx, v) =>
      (some { st with listModel := (st.listModel.insert idx v).1 },
       [BridgeCall.storeOp (Op.insert idx v)] ++
         (if st.autoScrolldown then [BridgeCall.scrollToBottom true] else []),
       PyResult.pyNone)

/-- The callback registered for `onRemove`. -/
def onRemove (self : Option ListWidgetState) (parsed : Option Int) :
    Option ListWidgetState × List BridgeCall × PyResult :=
  match self with
  | none => (none, [], PyResult.pyNone)
  | some st =>
    match parsed with
    | none => (some st, [], PyResult.null)
    | some idx =>
      (some { st with listModel := (st.listModel.remove idx).1 },
       [BridgeCall.storeOp (Op.remove idx)], PyResult.pyNone)

/-- The callback registered for `onClear`; `parsed` is whether the argument parsing,
were it called, succeeds. -/
def onClear (self : Option ListWidgetState) (parsed : Bool) :
    Option ListWidgetState × List BridgeCall × PyResult :=
  match self with
  | none => (none, [], PyResult.pyNone)
  | some st =>
    if !parsed then (some st, [], PyResult.null)
    else
      (some { st with listModel := st.listModel.clear.1 },
       [BridgeCall.storeOp Op.clear], PyResult.pyNone)

/-- The specification's reading of child iteration, on the list of materialized
widgets: the callback is invoked on them in order, and the visit ends right after the
first invocation that requests a stop. -/
def visitUntilStop {σ : Type} (cb : σ → PyQtGuiObject → σ × Bool) :
    List PyQtGuiObject → σ → σ × List (PyQtGuiObject × Bool)
  | [], st => (st, [])
  | widget :: rest, st =>
    if (cb st widget).2 then ((cb st widget).1, [(widget, true)])
    else
      ((visitUntilStop cb rest (cb st widget).1).1,
       (widget, false) :: (visitUntilStop cb rest (cb st widget).1).2)

/-- The store operation of a block marshaled onto the UI thread, if the call is one. -/
def BridgeCall.asStoreOp : BridgeCall → Option Op
  | BridgeCall.storeOp op => some op
  | _ => none

/-- Collaborators over a world that is the current size of the one control there is:
the factory returns control 7, both hooks succeed, `get_size` reads the size,
`set_size` stores it, `layout` leaves it, and the widget resolves. -/
def sizedCollab : Collab Vec where
  guiQt_createControlObject := fun w _ _ => (some 7, w)
  _buildControlObject_pre := fun w _ => (true, w)
  _buildControlObject_post := fun w _ => (true, w)
  get_size := fun w _ => (w, w)
  set_size := fun _ _ size => size
  layout := fun w _ => w
  widgetResolves := fun _ _ => true

/-- A registration in which every call succeeds. -/
def okReg : RegOutcome :=
  { control := some 1, callbackWrapper := true, event := true, res := true,
    setAttr := true }

/-- A run of the initial fill in which every call succeeds and the subject yields
the items 20 and 21. -/
def okFill : FillOutcome :=
  { list := true, lock := true, lockEnterRes := true, listIter := some ([20, 21], false),
    onInsert := okReg, onRemove := okReg, onClear := okReg, lockExitRes := true }

/-- A live list widget with an empty store. -/
def exampleSelf : ListWidgetState :=
  { listModel := { listWidget := some { control := some 1, width := 300 }, items := [] },
    autoScrolldown := false }

/-! ## Machine integers: lemmas -/

theorem sizeToInt_eq (n : Nat) (h : (n : Int) ≤ INT_MAX) : sizeToInt n = n := by
  unfold sizeToInt INT_MAX at *
  split <;> omega

theorem clampInsertIdx_eq (m : ListModel) (i : Int) (hi : IsCInt i) :
    clampInsertIdx m i = min (max i 0) (m.items.length : Int) := by
  unfold IsCInt INT_MIN INT_MAX at hi
  unfold clampInsertIdx sizeToInt INT_MAX
  simp only
  split_ifs <;> omega

/-! ## The vector primitives -/

theorem vectorInsert_length (xs : List ListItem) (k : Nat) (x : ListItem)
    (hk : k ≤ xs.length) : (vectorInsert xs k x).length = xs.length + 1 := by
  simp [vectorInsert]; omega

theorem vectorInsert_at (xs : List ListItem) (k : Nat) (x : ListItem)
    (hk : k ≤ xs.length) : (vectorInsert xs k x)[k]? = some x := by
  unfold vectorInsert
  rw [List.getElem?_append_right (by simp)]
  simp [Nat.min_eq_left hk]

theorem vectorInsert_below (xs : List ListItem) (k j : Nat) (x : ListItem) (hj : j < k)
    (hk : k ≤ xs.length) : (vectorInsert xs k x)[j]? = xs[j]? := by
  unfold vectorInsert
  rw [List.getElem?_append_left (by simp; omega)]
  simp [List.getElem?_take, hj]

theorem vectorInsert_above (xs : List ListItem) (k j : Nat) (x : ListItem) (hj : k ≤ j)
    (hk : k ≤ xs.length) : (vectorInsert xs k x)[j + 1]? = xs[j]? := by
  unfold vectorInsert
  rw [List.getElem?_append_right (by simp; omega)]
  have h1 : j + 1 - (List.take k xs).length = (j - k) + 1 := by simp; omega
  rw [h1]
  simp [List.getElem?_drop]
  congr 1; omega

theorem vectorErase_length (xs : List ListItem) (k : Nat) (hk : k < xs.length) :
    (vectorErase xs k).length = xs.length - 1 := by
  simp [vectorErase]; omega

theorem vectorErase_below (xs : List ListItem) (k j : Nat) (hj : j < k)
    (hk : k < xs.length) : (vectorErase xs k)[j]? = xs[j]? := by
  unfold vectorErase
  rw [List.getElem?_append_left (by simp; omega)]
  simp [List.getElem?_take, hj]

theorem vectorErase_above (xs : List ListItem) (k j : Nat) (hj : k ≤ j)
    (hk : k < xs.length) : (vectorErase xs k)[j]? = xs[j + 1]? := by
  unfold vectorErase
  rw [List.getElem?_append_right (by simp; omega)]
  simp [List.getElem?_drop]
  congr 1; omega

theorem remove_in_range_eq (m : ListModel) (i : Int) (h0 : 0 ≤ i)
    (hk : i.toNat < m.items.length) :
    m.remove i =
      ({ m with items := vectorErase m.items i.toNat },
       [Effect.beginRemoveRows i i, Effect.deleteItem m.items[i.toNat],
        Effect.endRemoveRows]) := by
  unfold ListModel.remove
  rw [if_neg (not_lt.mpr h0), dif_neg (by omega)]

theorem remove_out_of_range_eq (m : ListModel) (i : Int)
    (h : i < 0 ∨ (m.items.length : Int) ≤ i) : m.remove i = (m, []) := by
  unfold ListModel.remove
  split_ifs with h1 h2
  · rfl
  · rfl
  · exfalso; omega

/-! ## C1 - C3: insert and remove -/

/-- C1: `insert(i, v)` with `i` any C `int` (negative or beyond the size included) on a
store of `n` rows gives `n + 1` rows with a fresh row for `v` at
`k = min (max i 0) n`; the rows formerly below `k` keep their position, every row
formerly at `j ≥ k` is at `j + 1`; the calls on the Qt model are exactly the
insertion bracket for `[k, k]`; the owner reference is untouched. -/
theorem insert_clamps_and_shifts (m : ListModel) (i : Int) (v : PyObject) (hi : IsCInt i) :
    (m.insert i v).1.items.length = m.items.length + 1 ∧
    (m.insert i v).1.items[(min (max i 0) (m.items.length : Int)).toNat]?
      = some { subjectObject := v, control := none } ∧
    (∀ j : Nat, (j : Int) < min (max i 0) (m.items.length : Int) →
      (m.insert i v).1.items[j]? = m.items[j]?) ∧
    (∀ j : Nat, min (max i 0) (m.items.length : Int) ≤ (j : Int) →
      (m.insert i v).1.items[j + 1]? = m.items[j]?) ∧
    (m.insert i v).2 =
      [Effect.beginInsertRows (min (max i 0) (m.items.length : Int))
          (min (max i 0) (m.items.length : Int)),
        Effect.endInsertRows] ∧
    (m.insert i v).1.listWidget = m.listWidget := by
  have hc := clampInsertIdx_eq m i hi
  have hk : (min (max i 0) (m.items.length : Int)).toNat ≤ m.items.length := by omega
  have hins : m.insert i v =
      (ListModel.mk m.listWidget (vectorInsert m.items
          (min (max i 0) (m.items.length : Int)).toNat (ListItem.new v)),
       [Effect.beginInsertRows (min (max i 0) (m.items.length : Int))
          (min (max i 0) (m.items.length : Int)), Effect.endInsertRows]) := by
    unfold ListModel.insert
    rw [hc]
  rw [hins]
  refine ⟨vectorInsert_length _ _ _ hk, vectorInsert_at _ _ _ hk, ?_, ?_, rfl, rfl⟩
  · intro j hj
    exact vectorInsert_below _ _ _ _ (by omega) hk
  · intro j hj
    exact vectorInsert_above _ _ _ _ (by omega) hk

/-- C1 at a concrete input: inserting at index 7 into the three-row store. -/
theorem insert_clamps_and_shifts_witness :
    IsCInt 7 ∧
    (exampleModel.insert 7 99).1.items.length = 3 + 1 ∧
    (exampleModel.insert 7 99).2 = [Effect.beginInsertRows 3 3, Effect.endInsertRows] :=
  ⟨by decide,
   (insert_clamps_and_shifts exampleModel 7 99 (by decide)).1,
   (insert_clamps_and_shifts exampleModel 7 99 (by decide)).2.2.2.2.1⟩

/-- C2: `remove(i)` with `i < 0` or `i ≥ n` returns the store unchanged and makes no
call on the Qt model (no notification, no row destroyed). -/
theorem remove_out_of_range_noop (m : ListModel) (i : Int)
    (h : i < 0 ∨ (m.items.length : Int) ≤ i) :
    (m.remove i).1 = m ∧ (m.remove i).2 = [] := by
  rw [remove_out_of_range_eq m i h]
  exact ⟨rfl, rfl⟩

/-- C2 at the inputs of the specification: `remove(-1)` and `remove(1000)` on a
three-row store. -/
theorem remove_out_of_range_noop_witness :
    ((exampleModel.remove (-1)).1 = exampleModel ∧ (exampleModel.remove (-1)).2 = []) ∧
    ((exampleModel.remove 1000).1 = exampleModel ∧ (exampleModel.remove 1000).2 = []) :=
  ⟨remove_out_of_range_noop exampleModel (-1) (Or.inl (by decide)),
   remove_out_of_range_noop exampleModel 1000 (Or.inr (by decide))⟩

/-- C3: `remove(i)` with `0 ≤ i < n` gives `n - 1` rows; the rows formerly below `i`
keep their position and every row formerly at `j + 1 > i` is at `j`; the one row
destroyed is the row that was at `i`, and the calls on the Qt model are exactly the
removal bracket for `[i, i]` around that destruction. -/
theorem remove_in_range_shifts (m : ListModel) (i : Int)
    (h0 : 0 ≤ i) (hn : i < (m.items.length : Int)) :
    (m.remove i).1.items.length = m.items.length - 1 ∧
    (∀ j : Nat, (j : Int) < i → (m.remove i).1.items[j]? = m.items[j]?) ∧
    (∀ j : Nat, i ≤ (j : Int) → (m.remove i).1.items[j]? = m.items[j + 1]?) ∧
    (∃ item, m.items[i.toNat]? = some item ∧
      (m.remove i).2 =
        [Effect.beginRemoveRows i i, Effect.deleteItem item, Effect.endRemoveRows]) ∧
    (m.remove i).1.listWidget = m.listWidget := by
  have hk : i.toNat < m.items.length := by omega
  rw [remove_in_range_eq m i h0 hk]
  refine ⟨vectorErase_length _ _ hk, ?_, ?_, ?_, rfl⟩
  · intro j hj
    exact vectorErase_below _ _ _ (by omega) hk
  · intro j hj
    exact vectorErase_above _ _ _ (by omega) hk
  · exact ⟨m.items[i.toNat], List.getElem?_eq_getElem hk, rfl⟩

/-- C3 at a concrete input: removing row 1 of the three-row store. -/
theorem remove_in_range_shifts_witness :
    (exampleModel.remove 1).1.items.length = 3 - 1 ∧
    (∃ item, exampleModel.items[(1 : Int).toNat]? = some item ∧
      (exampleModel.remove 1).2 =
        [Effect.beginRemoveRows 1 1, Effect.deleteItem item, Effect.endRemoveRows]) :=
  ⟨(remove_in_range_shifts exampleModel 1 (by decide) (by decide)).1,
   (remove_in_range_shifts exampleModel 1 (by decide) (by decide)).2.2.2.1⟩


/-! ## C4: sequences of operations against the reference list -/

theorem map_vectorInsert (xs : List ListItem) (k : Nat) (x : ListItem) (hk : k ≤ xs.length) :
    (vectorInsert xs k x).map ListItem.subjectObject
      = (xs.map ListItem.subjectObject).insertIdx k x.subjectObject := by
  induction k generalizing xs with
  | zero => simp [vectorInsert, List.insertIdx]
  | succ k ih =>
    cases xs with
    | nil => simp at hk
    | cons a t =>
      have h := ih t (by simpa using hk)
      simp only [vectorInsert, List.insertIdx] at h ⊢
      simp [h]

theorem map_vectorErase (xs : List ListItem) (k : Nat) :
    (vectorErase xs k).map ListItem.subjectObject
      = (xs.map ListItem.subjectObject).eraseIdx k := by
  simp [vectorErase, List.eraseIdx_eq_take_drop_succ]

theorem applyOp_refines (m : ListModel) (op : Op) (hop : op.WellTyped) :
    (m.applyOp op).items.map ListItem.subjectObject
      = refStep (m.items.map ListItem.subjectObject) op := by
  cases op with
  | pushBack value => simp [ListModel.applyOp, ListModel.push_back, refStep, ListItem.new]
  | insert index value =>
    have hc := clampInsertIdx_eq m index hop
    have hk : (min (max index 0) (m.items.length : Int)).toNat ≤ m.items.length := by omega
    simp only [ListModel.applyOp, ListModel.insert, refStep, hc, List.length_map]
    exact map_vectorInsert _ _ _ hk
  | remove index =>
    simp only [ListModel.applyOp, refStep, List.length_map]
    by_cases h : 0 ≤ index ∧ index < (m.items.length : Int)
    · rw [if_pos h, remove_in_range_eq m index h.1 (by omega)]
      exact map_vectorErase _ _
    · rw [if_neg h, remove_out_of_range_eq m index (by omega)]
  | clear => simp [ListModel.applyOp, ListModel.clear, refStep]

theorem run_refines_from (ops : List Op) (hty : ∀ op ∈ ops, op.WellTyped) (m : ListModel) :
    (m.run ops).items.map ListItem.subjectObject
      = ops.foldl refStep (m.items.map ListItem.subjectObject) := by
  induction ops generalizing m with
  | nil => rfl
  | cons op rest ih =>
    simp only [ListModel.run, List.foldl_cons]
    have h1 := ih (fun o ho => hty o (List.mem_cons_of_mem _ ho)) (m.applyOp op)
    simp only [ListModel.run] at h1
    rw [h1, applyOp_refines m op (hty op (List.mem_cons_self _ _))]

theorem refStep_length_tally (xs : List PyObject) (t : Nat × Nat) (op : Op)
    (h : xs.length = t.1 - t.2 ∧ t.2 ≤ t.1) :
    (refStep xs op).length = (tallyStep t op).1 - (tallyStep t op).2 ∧
      (tallyStep t op).2 ≤ (tallyStep t op).1 := by
  obtain ⟨h1, h2⟩ := h
  cases op with
  | pushBack value => simp [refStep, tallyStep]; omega
  | insert index value =>
    simp only [refStep, tallyStep]
    rw [List.length_insertIdx _ _ (by omega)]
    omega
  | remove index =>
    simp only [refStep, tallyStep]
    by_cases hc : 0 ≤ index ∧ index < (xs.length : Int)
    · have hc2 : 0 ≤ index ∧ index < ((t.1 - t.2 : Nat) : Int) := by rw [← h1]; exact hc
      rw [if_pos hc, if_pos hc2, List.length_eraseIdx, if_pos (by omega)]
      simp only
      omega
    · have hc2 : ¬ (0 ≤ index ∧ index < ((t.1 - t.2 : Nat) : Int)) := by rw [← h1]; exact hc
      rw [if_neg hc, if_neg hc2]
      exact ⟨h1, h2⟩
  | clear => simp [refStep, tallyStep]

theorem refRun_length_tally_from (ops : List Op) (xs : List PyObject) (t : Nat × Nat)
    (h : xs.length = t.1 - t.2 ∧ t.2 ≤ t.1) :
    (ops.foldl refStep xs).length = (ops.foldl tallyStep t).1 - (ops.foldl tallyStep t).2 ∧
      (ops.foldl tallyStep t).2 ≤ (ops.foldl tallyStep t).1 := by
  induction ops generalizing xs t with
  | nil => exact h
  | cons op rest ih =>
    simp only [List.foldl_cons]
    exact ih _ _ (refStep_length_tally xs t op h)

theorem data_in_range (m : ListModel) (i : Int) (h0 : 0 ≤ i) (hk : i.toNat < m.items.length) :
    m.data { row := i, column := 0 } DisplayRole = some m.items[i.toNat] := by
  unfold ListModel.data
  simp only [ne_eq, not_true_eq_false, if_false]
  rw [if_neg (not_lt.mpr h0), dif_neg (by omega)]

theorem data_out_of_range (m : ListModel) (i : Int)
    (h : i < 0 ∨ (m.items.length : Int) ≤ i) :
    m.data { row := i, column := 0 } DisplayRole = none := by
  unfold ListModel.data
  simp only [ne_eq, not_true_eq_false, if_false]
  split_ifs with h1 h2
  · rfl
  · rfl
  · exfalso; omega

theorem copyLoop_items (m : ListModel) (xs : List PyObject) :
    (copyLoop m xs).1 = { m with items := m.items ++ xs.map ListItem.new } := by
  induction xs generalizing m with
  | nil => simp [copyLoop]
  | cons x rest ih =>
    simp only [copyLoop]
    rw [ih]
    simp [ListModel.push_back]

theorem copyLoop_append (m : ListModel) (ys zs : List PyObject) :
    copyLoop m (ys ++ zs)
      = ((copyLoop (copyLoop m ys).1 zs).1, (copyLoop m ys).2 ++ (copyLoop (copyLoop m ys).1 zs).2) := by
  induction ys generalizing m with
  | nil => simp [copyLoop]
  | cons y rest ih =>
    have h := ih (m.push_back y).1
    simp only [List.cons_append, copyLoop, List.append_eq, h, List.append_assoc]

/-- C4: after any sequence of pushBack / insert / remove / clear operations with C
`int` indices applied to an empty store, the subject items of the store are the
reference list on which the same operations are replayed; when that length fits a C
`int`, `rowCount()` is the reference list's length, which is the number of inserts
since the last clear minus the number of in-range removes since the last clear; and
for every valid index `i` the row query returns a row whose subject item is the
reference list's `i`-th item. -/
theorem run_agrees_with_reference (lw : Option OwnerWidget) (ops : List Op)
    (hty : ∀ op ∈ ops, op.WellTyped) (hsz : ((refRun ops).length : Int) ≤ INT_MAX) :
    ((ListModel.mk lw []).run ops).items.map ListItem.subjectObject = refRun ops ∧
    ((ListModel.mk lw []).run ops).rowCount = ((refRun ops).length : Int) ∧
    ((refRun ops).length : Int) = ((tally ops).1 : Int) - ((tally ops).2 : Int) ∧
    (∀ i : Int, 0 ≤ i → i < ((ListModel.mk lw []).run ops).rowCount →
      ∃ item, ((ListModel.mk lw []).run ops).data { row := i, column := 0 } DisplayRole
          = some item ∧
        (refRun ops)[i.toNat]? = some item.subjectObject) := by
  have hitems : ((ListModel.mk lw []).run ops).items.map ListItem.subjectObject
      = refRun ops := run_refines_from ops hty (ListModel.mk lw [])
  have hlen : ((ListModel.mk lw []).run ops).items.length = (refRun ops).length := by
    rw [← hitems, List.length_map]
  have hrc : ((ListModel.mk lw []).run ops).rowCount = ((refRun ops).length : Int) := by
    unfold ListModel.rowCount
    rw [hlen]
    exact sizeToInt_eq _ hsz
  have ht := refRun_length_tally_from ops [] (0, 0) (by simp)
  refine ⟨hitems, hrc, ?_, ?_⟩
  · unfold refRun tally
    omega
  · intro i h0 hi
    rw [hrc] at hi
    have hk : i.toNat < ((ListModel.mk lw []).run ops).items.length := by omega
    refine ⟨_, data_in_range _ i h0 hk, ?_⟩
    rw [← hitems, List.getElem?_map, List.getElem?_eq_getElem hk]
    rfl

/-- C4 at a concrete sequence of eight operations, with out-of-range indices and a
clear in the middle. -/
theorem run_agrees_with_reference_witness :
    ((ListModel.mk none []).run
        [Op.pushBack 1, Op.insert 5 2, Op.insert (-1) 3, Op.remove 1, Op.remove 7,
         Op.clear, Op.pushBack 4, Op.insert 0 5]).rowCount = 2 :=
  (run_agrees_with_reference none
    [Op.pushBack 1, Op.insert 5 2, Op.insert (-1) 3, Op.remove 1, Op.remove 7,
     Op.clear, Op.pushBack 4, Op.insert 0 5] (by decide) (by decide)).2.1

/-! ## C5 - C7: push_back, data, bulk copy -/

/-- C5: `push_back(v)` on a store of `n` rows (`n` within the C `int` range of Qt's
row numbers) gives `n + 1` rows; the first `n` rows are unchanged, the last row wraps
`v` and has no control yet; the calls on the Qt model are exactly the insertion
bracket for `[n, n]`, and `n` is the new size minus one. -/
theorem push_back_appends (m : ListModel) (v : PyObject)
    (hn : (m.items.length : Int) ≤ INT_MAX) :
    (m.push_back v).1.items.length = m.items.length + 1 ∧
    (∀ j : Nat, j < m.items.length → (m.push_back v).1.items[j]? = m.items[j]?) ∧
    (m.push_back v).1.items[m.items.length]?
      = some { subjectObject := v, control := none } ∧
    (m.push_back v).2 =
      [Effect.beginInsertRows (m.items.length : Int) (m.items.length : Int),
       Effect.endInsertRows] ∧
    (m.items.length : Int) = ((m.push_back v).1.items.length : Int) - 1 ∧
    (m.push_back v).1.listWidget = m.listWidget := by
  unfold ListModel.push_back
  rw [sizeToInt_eq _ hn]
  refine ⟨by simp, ?_, by simp [ListItem.new], rfl, by simp, rfl⟩
  intro j hj
  simp [List.getElem?_append_left hj]

/-- C5 at a concrete input: appending to the three-row store. -/
theorem push_back_appends_witness :
    (exampleModel.push_back 99).2 = [Effect.beginInsertRows 3 3, Effect.endInsertRows] :=
  (push_back_appends exampleModel 99 (by decide)).2.2.2.1

/-- C6: `data` on column 0 with the display role returns the row stored at position
`i` when `0 ≤ i < n` and an invalid `QVariant` (`none`) when `i < 0` or `i ≥ n`.  The
method is `const`: `ListModel.data` is a function of the store and returns no new
store, so the store is unchanged. -/
theorem data_returns_row_or_none (m : ListModel) (i : Int) :
    (0 ≤ i ∧ i < (m.items.length : Int) →
      ∃ item, m.items[i.toNat]? = some item ∧
        m.data { row := i, column := 0 } DisplayRole = some item) ∧
    (i < 0 ∨ (m.items.length : Int) ≤ i →
      m.data { row := i, column := 0 } DisplayRole = none) := by
  refine ⟨?_, data_out_of_range m i⟩
  rintro ⟨h0, hn⟩
  have hk : i.toNat < m.items.length := by omega
  exact ⟨m.items[i.toNat], List.getElem?_eq_getElem hk, data_in_range m i h0 hk⟩

/-- C6 at concrete inputs: rows 1 and 1000 of the three-row store. -/
theorem data_returns_row_or_none_witness :
    (∃ item, exampleModel.items[(1 : Int).toNat]? = some item ∧
        exampleModel.data { row := 1, column := 0 } DisplayRole = some item) ∧
    exampleModel.data { row := 1000, column := 0 } DisplayRole = none :=
  ⟨(data_returns_row_or_none exampleModel 1).1 ⟨by decide, by decide⟩,
   (data_returns_row_or_none exampleModel 1000).2 (Or.inr (by decide))⟩

/-- The copy loop run on an empty store over the items `xs` leaves the store's
subject items equal to `xs`, in order; and at every position `k` the loop has first
brought the store to read exactly the first `k` items and then continues from that
store with the remaining items. -/
theorem copyLoop_preserves_order (lw : Option OwnerWidget) (xs : List PyObject) :
    (copyLoop (ListModel.mk lw []) xs).1.items.map ListItem.subjectObject = xs ∧
    (∀ k : Nat,
      (copyLoop (ListModel.mk lw []) (xs.take k)).1.items.map ListItem.subjectObject
        = xs.take k ∧
      (copyLoop (ListModel.mk lw []) xs).1
        = (copyLoop (copyLoop (ListModel.mk lw []) (xs.take k)).1 (xs.drop k)).1) := by
  have hmap : ∀ ys : List PyObject,
      (copyLoop (ListModel.mk lw []) ys).1.items.map ListItem.subjectObject = ys := by
    intro ys
    rw [copyLoop_items]
    simp [ListItem.new, Function.comp_def]
  refine ⟨hmap xs, fun k => ⟨hmap _, ?_⟩⟩
  conv_lhs => rw [← List.take_append_drop k xs]
  rw [copyLoop_append]

/-! ## C8 - C10: lazy construction and painting -/

theorem setupControl_frame {W : Type} (E : Collab W) (width : Int) (parent : PyQtGuiObject)
    (item : ListItem) (s : Ctx W) :
    item.setupControl E width parent s
      = ((item.setupControl E width parent { world := s.world, calls := [] }).1,
         { world := (item.setupControl E width parent { world := s.world, calls := [] }).2.world,
           calls := s.calls ++
             (item.setupControl E width parent { world := s.world, calls := [] }).2.calls }) := by
  unfold ListItem.setupControl resizeAndLayout
  cases item.control with
  | some control => simp
  | none =>
    simp only
    cases (E.guiQt_createControlObject s.world item.subjectObject parent).1 with
    | none => simp
    | some control =>
      simp only
      split_ifs <;> simp

theorem setupControl_no_render {W : Type} (E : Collab W) (width : Int) (parent : PyQtGuiObject)
    (item : ListItem) (w : W) :
    ∀ c ∈ (item.setupControl E width parent { world := w, calls := [] }).2.calls,
      c.isRender = false := by
  unfold ListItem.setupControl resizeAndLayout
  cases item.control with
  | some control => simp [Call.isRender]
  | none =>
    simp only
    cases (E.guiQt_createControlObject w item.subjectObject parent).1 with
    | none => simp [Call.isRender]
    | some control =>
      simp only
      split_ifs <;> simp [Call.isRender]

/-- The calls `paint` makes before it resolves the owner: full opacity, then the
selection or alternate-row background. -/
theorem paint_background {W : Type} (option : QStyleOptionViewItem) (s : Ctx W) :
    ∃ bg : List Call,
      (if option.selected then
          (s.log [Call.setOpacity 100]).log [Call.fillRect option.rect Brush.highlight]
        else if option.alternate then
          (s.log [Call.setOpacity 100]).log [Call.fillRect option.rect Brush.alternateBase]
        else s.log [Call.setOpacity 100])
        = { world := s.world, calls := s.calls ++ bg } ∧
      ∀ c ∈ bg, c.isRender = false := by
  by_cases h1 : option.selected = true
  · exact ⟨[Call.setOpacity 100, Call.fillRect option.rect Brush.highlight],
      by simp [h1, Ctx.log], by simp [Call.isRender]⟩
  · by_cases h2 : option.alternate = true
    · exact ⟨[Call.setOpacity 100, Call.fillRect option.rect Brush.alternateBase],
        by simp [h1, h2, Ctx.log], by simp [Call.isRender]⟩
    · exact ⟨[Call.setOpacity 100], by simp [h1, h2, Ctx.log], by simp [Call.isRender]⟩

/-- C8: when a resolution fails in `paint` - the row at the index is absent, the
owner no longer resolves, the owner has no control object, the factory returned
nothing for a row without a control, or the widget of the row's control does not
resolve - none of the calls `paint` makes is the widget render, and the last call is
the fill of the row rectangle with the palette's `dark` brush, whatever `selected` and
`alternate` are. -/
theorem paint_failure_draws_placeholder {W : Type} (E : Collab W) (m : ListModel)
    (option : QStyleOptionViewItem) (index : QModelIndex) (s : Ctx W)
    (h : m.data index DisplayRole = none ∨
      m.listWidget = none ∨
      (∃ lw, m.listWidget = some lw ∧ lw.control = none) ∨
      (∃ item lw parent, m.data index DisplayRole = some item ∧ m.listWidget = some lw ∧
        lw.control = some parent ∧ item.control = none ∧
        (E.guiQt_createControlObject s.world item.subjectObject parent).1 = none) ∨
      (∃ item lw parent control, m.data index DisplayRole = some item ∧
        m.listWidget = some lw ∧ lw.control = some parent ∧
        (item.setupControl E lw.width parent s).1.control = some control ∧
        E.widgetResolves (item.setupControl E lw.width parent s).2.world control = false)) :
    ∃ mid : List Call,
      (ItemDelegate.paint E m option index s).2.calls
        = s.calls ++ mid ++ [Call.fillRect option.rect Brush.dark] ∧
      ∀ c ∈ mid, c.isRender = false := by
  unfold ItemDelegate.paint
  cases hdata : m.data index DisplayRole with
  | none => exact ⟨[], by simp [paintError, Ctx.log], by simp⟩
  | some item =>
    obtain ⟨bg, hbg, hbgr⟩ := paint_background option s
    simp only [hbg]
    cases hlw : m.listWidget with
    | none => exact ⟨bg, by simp [paintError, Ctx.log], hbgr⟩
    | some lw =>
      cases hpar : lw.control with
      | none => exact ⟨bg, by simp [hpar, paintError, Ctx.log], hbgr⟩
      | some parent =>
        simp only [hpar]
        rw [setupControl_frame]
        simp only
        have hnr := setupControl_no_render E lw.width parent item s.world
        have hmid : ∀ c ∈ bg ++
            (item.setupControl E lw.width parent { world := s.world, calls := [] }).2.calls,
            c.isRender = false := by
          intro c hc
          rcases List.mem_append.mp hc with hc | hc
          · exact hbgr c hc
          · exact hnr c hc
        cases hctl : (item.setupControl E lw.width parent
            { world := s.world, calls := [] }).1.control with
        | none => exact ⟨_, by simp [hctl, paintError, Ctx.log], hmid⟩
        | some control =>
          simp only [hctl]
          cases hres : E.widgetResolves (item.setupControl E lw.width parent
              { world := s.world, calls := [] }).2.world control with
          | false => exact ⟨_, by simp [hres, paintError, Ctx.log], hmid⟩
          | true =>
            exfalso
            rcases h with h | h | h | h | h
            · simp [hdata] at h
            · simp [hlw] at h
            · obtain ⟨lw2, h1, h2⟩ := h
              rw [hlw] at h1
              cases h1
              simp [hpar] at h2
            · obtain ⟨item2, lw2, parent2, h1, h2, h3, h4, h5⟩ := h
              rw [hdata] at h1; cases h1
              rw [hlw] at h2; cases h2
              rw [hpar] at h3; cases h3
              have : (item.setupControl E lw.width parent
                  { world := s.world, calls := [] }).1.control = none := by
                unfold ListItem.setupControl
                simp [h4, h5]
              rw [this] at hctl
              cases hctl
            · obtain ⟨item2, lw2, parent2, control2, h1, h2, h3, h4, h5⟩ := h
              rw [hdata] at h1; cases h1
              rw [hlw] at h2; cases h2
              rw [hpar] at h3; cases h3
              rw [setupControl_frame] at h4 h5
              simp only at h4 h5
              rw [hctl] at h4
              cases h4
              rw [hres] at h5
              cases h5

/-- C8 at a concrete input: painting row 1 of the three-row store when the factory
returns nothing. -/
theorem paint_failure_draws_placeholder_witness :
    ∃ mid : List Call,
      (ItemDelegate.paint (fixedCollab none true true true ⟨100, 30⟩) exampleModel
          exampleOption { row := 1, column := 0 } { world := (), calls := [] }).2.calls
        = [] ++ mid ++ [Call.fillRect exampleOption.rect Brush.dark] ∧
      ∀ c ∈ mid, c.isRender = false :=
  paint_failure_draws_placeholder (fixedCollab none true true true ⟨100, 30⟩) exampleModel
    exampleOption { row := 1, column := 0 } { world := (), calls := [] }
    (Or.inr (Or.inr (Or.inr (Or.inl
      ⟨ListItem.new 11, { control := some 1, width := 300 }, 1,
        by decide, rfl, rfl, rfl, rfl⟩))))

/-- C9, evaluated where the code departs from it: row 1 of the three-row store has no
control, the factory returns control 7 whose widget resolves, and a build hook fails
(`_buildControlObject_post` in the first run, `_buildControlObject_pre` in the second).
After `paint` the row holds control 7, no placeholder fill was drawn, and the widget
was rendered. -/
theorem paint_after_failed_hook_renders :
    (ItemDelegate.paint (fixedCollab (some 7) true false true ⟨100, 30⟩) exampleModel
        exampleOption { row := 1, column := 0 } { world := (), calls := [] }).1.items
      = [ListItem.new 10, { subjectObject := 11, control := some 7 }, ListItem.new 12] ∧
    (ItemDelegate.paint (fixedCollab (some 7) true false true ⟨100, 30⟩) exampleModel
        exampleOption { row := 1, column := 0 } { world := (), calls := [] }).2.calls
      = [Call.setOpacity 100, Call.fillRect exampleOption.rect Brush.alternateBase,
         Call.createControlObject 11 1, Call.buildControlObject_pre 7,
         Call.buildControlObject_post 7, Call.setOpacity 80,
         Call.setAutoFillBackground 7 false, Call.render 7 0 22 298 22] ∧
    (ItemDelegate.paint (fixedCollab (some 7) false true true ⟨100, 30⟩) exampleModel
        exampleOption { row := 1, column := 0 } { world := (), calls := [] }).1.items
      = [ListItem.new 10, { subjectObject := 11, control := some 7 }, ListItem.new 12] ∧
    (ItemDelegate.paint (fixedCollab (some 7) false true true ⟨100, 30⟩) exampleModel
        exampleOption { row := 1, column := 0 } { world := (), calls := [] }).2.calls
      = [Call.setOpacity 100, Call.fillRect exampleOption.rect Brush.alternateBase,
         Call.createControlObject 11 1, Call.buildControlObject_pre 7,
         Call.setOpacity 80, Call.setAutoFillBackground 7 false,
         Call.render 7 0 22 298 22] := by
  decide

theorem setupControl_of_built {W : Type} (E : Collab W) (width : Int) (parent : PyQtGuiObject)
    (item : ListItem) (s : Ctx W) (control : PyQtGuiObject) (h : item.control = some control) :
    item.setupControl E width parent s = (item, resizeAndLayout E width control s) := by
  unfold ListItem.setupControl
  rw [h]

theorem setupControl_first_call {W : Type} (E : Collab W) (width : Int)
    (parent : PyQtGuiObject) (item : ListItem) (s : Ctx W) (control : PyQtGuiObject)
    (h0 : item.control = none)
    (h1 : (item.setupControl E width parent s).1.control = some control) :
    (item.setupControl E width parent s).1
        = { subjectObject := item.subjectObject, control := some control } ∧
      ((item.setupControl E width parent s).2.calls.drop s.calls.length).countP
        Call.isFactory = 1 := by
  unfold ListItem.setupControl resizeAndLayout at h1 ⊢
  rw [h0] at h1 ⊢
  simp only at h1 ⊢
  cases hf : (E.guiQt_createControlObject s.world item.subjectObject parent).1 with
  | none => simp [hf, h0] at h1
  | some c =>
    simp only [hf] at h1 ⊢
    split_ifs at h1 ⊢ <;> simp at h1 <;> subst h1 <;>
      simp [List.countP_cons, Call.isFactory]

/-- C10 as amended: when a first `setupControl` call on a row without a control leaves
it with a control, a second call (any width, any parent) constructs nothing: it leaves
the row holding the same control, makes no call to the factory or to a build hook, and
over both calls the factory is invoked exactly once.  What the second call does make
are the three calls `get_size`, `set_size` to the given width and the height read,
and `layout`, on that control. -/
theorem setupControl_second_call_builds_nothing {W : Type} (E : Collab W) (item : ListItem)
    (width width2 : Int) (parent parent2 : PyQtGuiObject) (s : Ctx W)
    (control : PyQtGuiObject) (h0 : item.control = none)
    (h1 : (item.setupControl E width parent s).1.control = some control) :
    ((item.setupControl E width parent s).1.setupControl E width2 parent2
        (item.setupControl E width parent s).2).1
      = (item.setupControl E width parent s).1 ∧
    ((item.setupControl E width parent s).1.setupControl E width2 parent2
        (item.setupControl E width parent s).2).2.calls
      = (item.setupControl E width parent s).2.calls ++
        [Call.get_size control,
         Call.set_size control
           { x := width2,
             y := (E.get_size (item.setupControl E width parent s).2.world control).1.y },
         Call.layout control] ∧
    (∀ c ∈ (((item.setupControl E width parent s).1.setupControl E width2 parent2
          (item.setupControl E width parent s).2).2.calls.drop
          (item.setupControl E width parent s).2.calls.length),
      c.isFactory = false ∧ c.isInitHook = false) ∧
    ((((item.setupControl E width parent s).1.setupControl E width2 parent2
        (item.setupControl E width parent s).2).2.calls.drop s.calls.length).countP
      Call.isFactory) = 1 := by
  have hfirst := setupControl_first_call E width parent item s control h0 h1
  have hsecond := setupControl_of_built E width2 parent2
    (item.setupControl E width parent s).1 (item.setupControl E width parent s).2 control h1
  have hframe := setupControl_frame E width parent item s
  rw [hsecond]
  refine ⟨rfl, rfl, ?_, ?_⟩
  · simp [resizeAndLayout, Call.isFactory, Call.isInitHook]
  · have hlen : s.calls.length ≤ (item.setupControl E width parent s).2.calls.length := by
      rw [hframe]; simp
    simp only [resizeAndLayout]
    rw [List.drop_append_of_le_length hlen, List.countP_append, hfirst.2]
    simp [List.countP_cons, Call.isFactory]

/-- C10 as amended, at a concrete input: two `setupControl` calls on a fresh row with a factory
that returns control 7 and hooks that succeed. -/
theorem setupControl_second_call_builds_nothing_witness :
    (((ListItem.new 11).setupControl (fixedCollab (some 7) true true true ⟨100, 30⟩) 300 1
        { world := (), calls := [] }).1.setupControl
        (fixedCollab (some 7) true true true ⟨100, 30⟩) 280 1
        ((ListItem.new 11).setupControl (fixedCollab (some 7) true true true ⟨100, 30⟩) 300 1
          { world := (), calls := [] }).2).1
      = ((ListItem.new 11).setupControl (fixedCollab (some 7) true true true ⟨100, 30⟩) 300 1
          { world := (), calls := [] }).1 :=
  (setupControl_second_call_builds_nothing (fixedCollab (some 7) true true true ⟨100, 30⟩)
    (ListItem.new 11) 300 280 1 1 { world := (), calls := [] } 7 rfl rfl).1

/-- C10 as stated fails: the second `setupControl` call is not a no-op.  On a fresh
row, with a control whose size is `100 x 30`, a first call with width 300 leaves the
control `300 x 30`; a second call with width 280 makes three more calls on the control
and leaves it `280 x 30`. -/
theorem setupControl_second_call_resizes :
    ((ListItem.new 11).setupControl sizedCollab 300 1
        { world := { x := 100, y := 30 }, calls := [] }).2.world = { x := 300, y := 30 } ∧
    (((ListItem.new 11).setupControl sizedCollab 300 1
        { world := { x := 100, y := 30 }, calls := [] }).1.setupControl sizedCollab 280 1
        ((ListItem.new 11).setupControl sizedCollab 300 1
          { world := { x := 100, y := 30 }, calls := [] }).2).2.world
      = { x := 280, y := 30 } ∧
    (((ListItem.new 11).setupControl sizedCollab 300 1
        { world := { x := 100, y := 30 }, calls := [] }).1.setupControl sizedCollab 280 1
        ((ListItem.new 11).setupControl sizedCollab 300 1
          { world := { x := 100, y := 30 }, calls := [] }).2).2.calls
      = ((ListItem.new 11).setupControl sizedCollab 300 1
          { world := { x := 100, y := 30 }, calls := [] }).2.calls
        ++ [Call.get_size 7, Call.set_size 7 { x := 280, y := 30 }, Call.layout 7] := by
  decide

/-! ## C11 - C13: size hints, child iteration, layout refresh -/

/-- C11: for every row index (column 0), whatever rows the store holds,
`ItemDelegate::sizeHint` returns width `w - 2` and height `22`, where `w` is the
owner's width, or `200` when the owner no longer resolves (`198 x 22`).  The method
is `const`, takes neither the factory nor the hooks and returns no store: it builds
nothing and its result does not depend on the rows. -/
theorem sizeHint_is_fallback (m : ListModel) (option : QStyleOptionViewItem) (row : Int) :
    (∀ widget, m.listWidget = some widget →
      ItemDelegate.sizeHint m option { row := row, column := 0 }
        = { width := widget.width - 2, height := 22 }) ∧
    (m.listWidget = none →
      ItemDelegate.sizeHint m option { row := row, column := 0 }
        = { width := 198, height := 22 }) ∧
    (∀ items : List ListItem,
      ItemDelegate.sizeHint { m with items := items } option { row := row, column := 0 }
        = ItemDelegate.sizeHint m option { row := row, column := 0 }) := by
  refine ⟨?_, ?_, ?_⟩
  · intro widget h
    simp [ItemDelegate.sizeHint, ListModel.sizeHint, ListModel.getOwnerWidth, h]
  · intro h
    simp [ItemDelegate.sizeHint, ListModel.sizeHint, ListModel.getOwnerWidth, h]
  · intro items
    simp [ItemDelegate.sizeHint, ListModel.sizeHint, ListModel.getOwnerWidth]

/-- C11 at concrete inputs: row 1000 of the three-row store whose owner is 300 wide,
and row 0 of an empty store whose owner is gone. -/
theorem sizeHint_is_fallback_witness :
    ItemDelegate.sizeHint exampleModel exampleOption { row := 1000, column := 0 }
      = { width := 300 - 2, height := 22 } ∧
    ItemDelegate.sizeHint { listWidget := none, items := [] } exampleOption
        { row := 0, column := 0 }
      = { width := 198, height := 22 } :=
  ⟨(sizeHint_is_fallback exampleModel exampleOption 1000).1
      { control := some 1, width := 300 } rfl,
   (sizeHint_is_fallback { listWidget := none, items := [] } exampleOption 0).2.1 rfl⟩

theorem controlChildIterLoop_eq_visit {σ : Type} (cb : σ → PyQtGuiObject → σ × Bool)
    (items : List ListItem) (st : σ) :
    controlChildIterLoop cb items st
      = visitUntilStop cb (items.filterMap ListItem.control) st := by
  induction items generalizing st with
  | nil => rfl
  | cons item rest ih =>
    cases hc : item.control with
    | none => simp [controlChildIterLoop, hc, List.filterMap_cons, ih]
    | some control =>
      simp only [controlChildIterLoop, hc, List.filterMap_cons, visitUntilStop, ih]

theorem visitUntilStop_prefix {σ : Type} (cb : σ → PyQtGuiObject → σ × Bool)
    (ws : List PyQtGuiObject) (st : σ) :
    ((visitUntilStop cb ws st).2.map Prod.fst) <+: ws ∧
    (∀ e ∈ (visitUntilStop cb ws st).2.dropLast, e.2 = false) ∧
    ((∀ e ∈ (visitUntilStop cb ws st).2, e.2 = false) →
      (visitUntilStop cb ws st).2.map Prod.fst = ws) := by
  induction ws generalizing st with
  | nil => simp [visitUntilStop]
  | cons w rest ih =>
    by_cases hstop : (cb st w).2 = true
    · simp [visitUntilStop, hstop, List.prefix_cons_iff]
    · obtain ⟨h1, h2, h3⟩ := ih (cb st w).1
      simp only [visitUntilStop, hstop, Bool.false_eq_true, if_false]
      refine ⟨?_, ?_, ?_⟩
      · simpa [List.prefix_cons_iff] using h1
      · intro e he
        cases hv : (visitUntilStop cb rest (cb st w).1).2 with
        | nil => simp [hv] at he
        | cons v vs =>
          rw [hv, List.dropLast_cons₂] at he
          rcases List.mem_cons.mp he with he | he
          · rw [he]
          · exact h2 e (by rw [hv]; exact he)
      · intro hall
        simp only [List.map_cons, List.cons.injEq, true_and]
        exact h3 (fun e he => hall e (List.mem_cons_of_mem _ he))

/-- C12: `controlChildIter` (and `childIter`, which forwards to it) invokes the
callback on the controls of the materialized rows only, in row order, exactly as the
visit of the materialized-widget list that ends right after the first stop request:
the visited controls are a prefix of that list, no invocation before the last one
requested a stop, and when no invocation requested a stop every materialized control
was visited. -/
theorem childIter_visits_prefix_until_stop {σ : Type} (self : ListWidgetState)
    (cb : σ → PyQtGuiObject → σ × Bool) (st : σ) :
    childIter self cb st
      = visitUntilStop cb (self.listModel.items.filterMap ListItem.control) st ∧
    ((childIter self cb st).2.map Prod.fst)
      <+: self.listModel.items.filterMap ListItem.control ∧
    (∀ e ∈ (childIter self cb st).2.dropLast, e.2 = false) ∧
    ((∀ e ∈ (childIter self cb st).2, e.2 = false) →
      (childIter self cb st).2.map Prod.fst
        = self.listModel.items.filterMap ListItem.control) := by
  have h : childIter self cb st
      = visitUntilStop cb (self.listModel.items.filterMap ListItem.control) st := by
    unfold childIter ListModel.controlChildIter
    exact controlChildIterLoop_eq_visit cb _ st
  rw [h]
  exact ⟨rfl, visitUntilStop_prefix cb _ st⟩

/-- C12 at a concrete input: rows with controls 7, none, 8, 9 and a callback that
counts its invocations and never requests a stop. -/
theorem childIter_visits_prefix_until_stop_witness :
    ((childIter
        (ListWidgetState.mk
          (ListModel.mk none
            [ListItem.mk 1 (some 7), ListItem.mk 2 none, ListItem.mk 3 (some 8),
             ListItem.mk 4 (some 9)])
          false)
        (fun (n : Nat) _ => (n + 1, false)) 0).2.map Prod.fst)
      = [7, 8, 9] :=
  (childIter_visits_prefix_until_stop
    (ListWidgetState.mk
      (ListModel.mk none
        [ListItem.mk 1 (some 7), ListItem.mk 2 none, ListItem.mk 3 (some 8),
         ListItem.mk 4 (some 9)])
      false)
    (fun (n : Nat) _ => (n + 1, false)) 0).2.2.2 (by decide)

/-- C13: on a store of `n ≥ 1` rows (`n - 1` within the C `int` range of Qt's row
numbers) `updateLayout` emits exactly one `dataChanged` whose range is row `0` to row
`n - 1` of column 0 and returns the store as it was; on an empty store it emits
nothing. -/
theorem updateLayout_notifies_all_rows (m : ListModel) :
    (1 ≤ m.items.length → (m.items.length : Int) - 1 ≤ INT_MAX →
      m.updateLayout
        = (m, [Effect.dataChanged { row := 0, column := 0 }
            { row := (m.items.length : Int) - 1, column := 0 }])) ∧
    (m.items = [] → m.updateLayout = (m, [])) := by
  refine ⟨?_, ?_⟩
  · intro h1 hmax
    have hne : m.items.isEmpty = false := by
      cases hi : m.items with
      | nil => simp [hi] at h1
      | cons a t => rfl
    have hconv : sizeToInt (m.items.length - 1) = (m.items.length : Int) - 1 := by
      rw [sizeToInt_eq _ (by omega)]
      omega
    unfold ListModel.updateLayout
    rw [hne, hconv]
    rfl
  · intro h
    unfold ListModel.updateLayout
    simp [h]

/-- C13 at concrete inputs: the three-row store and an empty store. -/
theorem updateLayout_notifies_all_rows_witness :
    exampleModel.updateLayout
      = (exampleModel, [Effect.dataChanged { row := 0, column := 0 }
          { row := ((exampleModel.items.length : Nat) : Int) - 1, column := 0 }]) ∧
    (ListModel.mk none []).updateLayout = (ListModel.mk none [], []) :=
  ⟨(updateLayout_notifies_all_rows exampleModel).1 (by decide) (by decide),
   (updateLayout_notifies_all_rows (ListModel.mk none [])).2 rfl⟩

/-! ## C14 - C18: the bridge -/

theorem registerEv_head (evName : EvName) (r : RegOutcome) :
    ∃ rest, registerEv evName r = BridgeCall.registerEv evName :: rest ∧
      ∀ e ∈ rest, e.isRegisterEv = false := by
  rcases r with ⟨control, w, ev, rs, sa⟩
  cases control <;> cases w <;> cases ev <;> cases rs <;>
    simp [registerEv, BridgeCall.isRegisterEv]

theorem registerEv_plain (evName : EvName) (r : RegOutcome) :
    ∀ e ∈ registerEv evName r,
      e.isLockExit = false ∧ e.isLockAcquire = false ∧ e.isMarshal = false := by
  rcases r with ⟨control, w, ev, rs, sa⟩
  cases control <;> cases w <;> cases ev <;> cases rs <;>
    simp [registerEv, BridgeCall.isLockExit, BridgeCall.isLockAcquire, BridgeCall.isMarshal]

theorem fillLoopCalls_plain (ys : List PyObject) :
    ∀ e ∈ fillLoopCalls ys,
      e.isLockExit = false ∧ e.isLockAcquire = false ∧ e.isRegisterEv = false := by
  induction ys with
  | nil =>
    simp [fillLoopCalls, BridgeCall.isLockExit, BridgeCall.isLockAcquire,
      BridgeCall.isRegisterEv]
  | cons y rest ih =>
    intro e he
    simp only [fillLoopCalls, List.mem_cons] at he
    rcases he with he | he | he
    · subst he; simp [BridgeCall.isLockExit, BridgeCall.isLockAcquire, BridgeCall.isRegisterEv]
    · subst he; simp [BridgeCall.isLockExit, BridgeCall.isLockAcquire, BridgeCall.isRegisterEv]
    · exact ih e he

/-- The calls of the initial fill between the successful `PyObject_GetIter` and the
label `finalInitialFill:`. -/
theorem initialFill_calls_of_copy (st : ListWidgetState) (o : FillOutcome)
    (run : List PyObject × Bool) (hl : o.list = true) (hk : o.lock = true)
    (he : o.lockEnterRes = true) (hi : o.listIter = some run) :
    ∃ body : List BridgeCall,
      (initialFill (some st) o).2
        = BridgeCall.getAttrLock true :: BridgeCall.lockEnter true ::
            BridgeCall.getIter true :: body ++ [BridgeCall.lockExit o.lockExitRes] ∧
      body = fillLoopCalls run.1
          ++ (if st.autoScrolldown then [BridgeCall.scrollToBottom false] else [])
          ++ registerEv EvName.onInsert o.onInsert
          ++ registerEv EvName.onRemove o.onRemove
          ++ registerEv EvName.onClear o.onClear ∧
      ∀ e ∈ body, e.isLockExit = false ∧ e.isLockAcquire = false := by
  refine ⟨_, ?_, rfl, ?_⟩
  · simp [initialFill, finalInitialFill, hl, hk, he, hi]
  · intro e hmem
    simp only [List.mem_append] at hmem
    rcases hmem with (((hmem | hmem) | hmem) | hmem) | hmem
    · exact ⟨(fillLoopCalls_plain _ e hmem).1, (fillLoopCalls_plain _ e hmem).2.1⟩
    · by_cases hs : st.autoScrolldown = true
      · simp [hs] at hmem
        subst hmem
        simp [BridgeCall.isLockExit, BridgeCall.isLockAcquire]
      · simp [hs] at hmem
    · exact ⟨(registerEv_plain _ _ e hmem).1, (registerEv_plain _ _ e hmem).2.1⟩
    · exact ⟨(registerEv_plain _ _ e hmem).1, (registerEv_plain _ _ e hmem).2.1⟩
    · exact ⟨(registerEv_plain _ _ e hmem).1, (registerEv_plain _ _ e hmem).2.1⟩

/-- The calls of the initial fill when it does not reach the copy loop. -/
theorem initialFill_calls_of_abort (self : Option ListWidgetState) (o : FillOutcome)
    (h : self = none ∨ o.list = false ∨ o.lock = false ∨ o.lockEnterRes = false ∨
      o.listIter = none) :
    (initialFill self o).2 = [] ∨
    (initialFill self o).2 = [BridgeCall.getAttrLock false] ∨
    (initialFill self o).2 = [BridgeCall.getAttrLock true, BridgeCall.lockEnter false] ∨
    (initialFill self o).2 = [BridgeCall.getAttrLock true, BridgeCall.lockEnter true,
      BridgeCall.getIter false, BridgeCall.lockExit o.lockExitRes] := by
  cases self with
  | none => left; rfl
  | some st =>
    cases hl : o.list with
    | false => left; simp [initialFill, finalInitialFill, hl]
    | true =>
      cases hk : o.lock with
      | false => right; left; simp [initialFill, finalInitialFill, hl, hk]
      | true =>
        cases he : o.lockEnterRes with
        | false => right; right; left; simp [initialFill, finalInitialFill, hl, hk, he]
        | true =>
          cases hi : o.listIter with
          | none => right; right; right; simp [initialFill, finalInitialFill, hl, hk, he, hi]
          | some run => simp [hl, hk, he, hi] at h

theorem initialFill_abort_or_copy (self : Option ListWidgetState) (o : FillOutcome) :
    (self = none ∨ o.list = false ∨ o.lock = false ∨ o.lockEnterRes = false ∨
      o.listIter = none) ∨
    (∃ st run, self = some st ∧ o.list = true ∧ o.lock = true ∧ o.lockEnterRes = true ∧
      o.listIter = some run) := by
  cases self with
  | none => left; left; rfl
  | some st =>
    cases hl : o.list with
    | false => left; right; left; rfl
    | true =>
      cases hk : o.lock with
      | false => left; right; right; left; rfl
      | true =>
        cases he : o.lockEnterRes with
        | false => left; right; right; right; left; rfl
        | true =>
          cases hi : o.listIter with
          | none => left; right; right; right; right; rfl
          | some run => right; exact ⟨st, run, rfl, rfl, rfl, rfl, rfl⟩

theorem lock_discipline_of_release (tr before : List BridgeCall) (ok : Bool)
    (h : tr = before ++ [BridgeCall.lockExit ok])
    (hen : BridgeCall.lockEnter true ∈ before)
    (hno : ∀ e ∈ before, e.isLockExit = false) :
    (BridgeCall.lockEnter true ∈ tr →
      ∃ before ok, tr = before ++ [BridgeCall.lockExit ok] ∧
        BridgeCall.lockEnter true ∈ before ∧ ∀ e ∈ before, e.isLockExit = false) ∧
    (BridgeCall.lockEnter true ∉ tr → ∀ e ∈ tr, e.isLockExit = false) ∧
    tr.countP BridgeCall.isLockExit
      = if BridgeCall.lockEnter true ∈ tr then 1 else 0 := by
  have hmem : BridgeCall.lockEnter true ∈ tr := by
    rw [h]; exact List.mem_append_left _ hen
  refine ⟨fun _ => ⟨before, ok, h, hen, hno⟩, fun hn => absurd hmem hn, ?_⟩
  rw [if_pos hmem, h, List.countP_append]
  have h0 : before.countP BridgeCall.isLockExit = 0 := by
    rw [List.countP_eq_zero]
    intro e he
    simp [hno e he]
  rw [h0]
  simp [List.countP_cons, BridgeCall.isLockExit]

theorem lock_discipline_of_no_acquire (tr : List BridgeCall)
    (hen : BridgeCall.lockEnter true ∉ tr)
    (hno : ∀ e ∈ tr, e.isLockExit = false) :
    (BridgeCall.lockEnter true ∈ tr →
      ∃ before ok, tr = before ++ [BridgeCall.lockExit ok] ∧
        BridgeCall.lockEnter true ∈ before ∧ ∀ e ∈ before, e.isLockExit = false) ∧
    (BridgeCall.lockEnter true ∉ tr → ∀ e ∈ tr, e.isLockExit = false) ∧
    tr.countP BridgeCall.isLockExit
      = if BridgeCall.lockEnter true ∈ tr then 1 else 0 := by
  refine ⟨fun hm => absurd hm hen, fun _ => hno, ?_⟩
  rw [if_neg hen, List.countP_eq_zero]
  intro e he
  simp [hno e he]

/-- C14: when the weak self-reference resolves to absent at the start of a deferred
closure of the bridge - the initial fill task, `onInsert`, `onRemove`, `onClear` - the
closure makes no call at all (no block on the store, no lock lookup or `__enter__`, no
registration), there is no widget state afterwards either, and each callback returns
`Py_None`, not `NULL`, whatever its arguments and whatever the interpreter calls would
have answered. -/
theorem closures_inert_when_self_absent (o : FillOutcome)
    (insertArgs : Option (Int × PyObject)) (removeArgs : Option Int) (clearArgs : Bool) :
    initialFill none o = (none, []) ∧
    onInsert none insertArgs = (none, [], PyResult.pyNone) ∧
    onRemove none removeArgs = (none, [], PyResult.pyNone) ∧
    onClear none clearArgs = (none, [], PyResult.pyNone) :=
  ⟨rfl, rfl, rfl, rfl⟩

/-- C16: in every run of the initial fill task, whatever the outcomes of its calls, if
`__enter__` succeeded then the calls end with the one `__exit__`, which comes after the
`__enter__` and is preceded by no other `__exit__`; if `__enter__` did not succeed (not
called, or failed) there is no `__exit__`; so `__exit__` is called once in the first
case and never in the second. -/
theorem lock_released_exactly_once (self : Option ListWidgetState) (o : FillOutcome) :
    (BridgeCall.lockEnter true ∈ (initialFill self o).2 →
      ∃ before ok, (initialFill self o).2 = before ++ [BridgeCall.lockExit ok] ∧
        BridgeCall.lockEnter true ∈ before ∧ ∀ e ∈ before, e.isLockExit = false) ∧
    (BridgeCall.lockEnter true ∉ (initialFill self o).2 →
      ∀ e ∈ (initialFill self o).2, e.isLockExit = false) ∧
    (initialFill self o).2.countP BridgeCall.isLockExit
      = if BridgeCall.lockEnter true ∈ (initialFill self o).2 then 1 else 0 := by
  rcases initialFill_abort_or_copy self o with h | ⟨st, run, hs, hl, hk, he, hi⟩
  · rcases initialFill_calls_of_abort self o h with h | h | h | h
    · exact lock_discipline_of_no_acquire _ (by simp [h]) (by simp [h])
    · exact lock_discipline_of_no_acquire _ (by simp [h])
        (by simp [h, BridgeCall.isLockExit])
    · exact lock_discipline_of_no_acquire _ (by simp [h])
        (by simp [h, BridgeCall.isLockExit])
    · exact lock_discipline_of_release _
        [BridgeCall.getAttrLock true, BridgeCall.lockEnter true, BridgeCall.getIter false]
        o.lockExitRes (by simp [h]) (by simp) (by simp [BridgeCall.isLockExit])
  · subst hs
    obtain ⟨body, hcalls, _, hbody⟩ := initialFill_calls_of_copy st o run hl hk he hi
    refine lock_discipline_of_release _
      (BridgeCall.getAttrLock true :: BridgeCall.lockEnter true ::
        BridgeCall.getIter true :: body) o.lockExitRes (by simp [hcalls]) (by simp) ?_
    intro e hmem
    simp only [List.mem_cons] at hmem
    rcases hmem with hmem | hmem | hmem | hmem
    · subst hmem; rfl
    · subst hmem; rfl
    · subst hmem; rfl
    · exact (hbody e hmem).1

/-- C16 at a concrete run: every call succeeds and two items are copied. -/
theorem lock_released_exactly_once_witness :
    ∃ before ok, (initialFill (some exampleSelf) okFill).2
        = before ++ [BridgeCall.lockExit ok] ∧
      BridgeCall.lockEnter true ∈ before ∧ ∀ e ∈ before, e.isLockExit = false :=
  (lock_released_exactly_once (some exampleSelf) okFill).1 (by decide)

theorem registerEv_lookup_mem (evName : EvName) (r : RegOutcome)
    (hc : r.control.isSome = true) (hw : r.callbackWrapper = true) :
    BridgeCall.getAttrEvent evName r.event ∈ registerEv evName r ∧
    (r.event = true → BridgeCall.register evName r.res ∈ registerEv evName r) := by
  rcases r with ⟨control, w, ev, rs, sa⟩
  cases control with
  | none => simp at hc
  | some c =>
    simp only at hw
    subst hw
    cases ev <;> cases rs <;> simp [registerEv]

/-- C18 as stated fails: in the run where the lookup of `list.lock` fails and every
other call would succeed, `registerEv` is invoked for none of the three events. -/
theorem lock_lookup_failure_skips_registration :
    BridgeCall.registerEv EvName.onInsert ∉
        (initialFill (some exampleSelf) { okFill with lock := false }).2 ∧
    BridgeCall.registerEv EvName.onRemove ∉
        (initialFill (some exampleSelf) { okFill with lock := false }).2 ∧
    BridgeCall.registerEv EvName.onClear ∉
        (initialFill (some exampleSelf) { okFill with lock := false }).2 ∧
    (initialFill (some exampleSelf) { okFill with lock := false }).2
      = [BridgeCall.getAttrLock false] := by
  decide

/-- C18 as amended: when the task reaches the copy loop (the controller and the list
resolve, `list.lock` is found, `__enter__` succeeds and `PyObject_GetIter` succeeds),
then whatever happens while advancing the iterator and in the registration of any
event, `registerEv` is invoked for `onInsert`, `onRemove` and `onClear`, in this
order, and for each event the lookup of the event is made whenever its own
`getControl` and wrapper creation succeed, and `register` is called whenever its own
lookup succeeds too; when the task does not reach the copy loop, `registerEv` is not
invoked at all. -/
theorem registration_attempts_of_initialFill (self : Option ListWidgetState)
    (o : FillOutcome) :
    ((∃ st run, self = some st ∧ o.list = true ∧ o.lock = true ∧
        o.lockEnterRes = true ∧ o.listIter = some run) →
      (∃ a b c d, (initialFill self o).2
          = a ++ BridgeCall.registerEv EvName.onInsert :: b
              ++ BridgeCall.registerEv EvName.onRemove :: c
              ++ BridgeCall.registerEv EvName.onClear :: d) ∧
      (∀ evName, (o.reg evName).control.isSome = true →
        (o.reg evName).callbackWrapper = true →
        BridgeCall.getAttrEvent evName (o.reg evName).event ∈ (initialFill self o).2 ∧
        ((o.reg evName).event = true →
          BridgeCall.register evName (o.reg evName).res ∈ (initialFill self o).2))) ∧
    ((self = none ∨ o.list = false ∨ o.lock = false ∨ o.lockEnterRes = false ∨
        o.listIter = none) →
      ∀ e ∈ (initialFill self o).2, e.isRegisterEv = false) := by
  refine ⟨?_, ?_⟩
  · rintro ⟨st, run, hs, hl, hk, he, hi⟩
    subst hs
    obtain ⟨body, hcalls, hbody, _⟩ := initialFill_calls_of_copy st o run hl hk he hi
    obtain ⟨r1, h1, _⟩ := registerEv_head EvName.onInsert o.onInsert
    obtain ⟨r2, h2, _⟩ := registerEv_head EvName.onRemove o.onRemove
    obtain ⟨r3, h3, _⟩ := registerEv_head EvName.onClear o.onClear
    refine ⟨⟨BridgeCall.getAttrLock true :: BridgeCall.lockEnter true ::
        BridgeCall.getIter true :: (fillLoopCalls run.1
          ++ (if st.autoScrolldown then [BridgeCall.scrollToBottom false] else [])),
        r1, r2, r3 ++ [BridgeCall.lockExit o.lockExitRes], ?_⟩, ?_⟩
    · rw [hcalls, hbody, h1, h2, h3]
      simp
    · intro evName hc hw
      have hsub : ∀ e ∈ registerEv evName (o.reg evName), e ∈ (initialFill (some st) o).2 := by
        intro e hm
        rw [hcalls, hbody]
        cases evName <;> simp only [FillOutcome.reg] at hm <;> simp [hm]
      have hreg := registerEv_lookup_mem evName (o.reg evName) hc hw
      exact ⟨hsub _ hreg.1, fun hev => hsub _ (hreg.2 hev)⟩
  · intro h
    rcases initialFill_calls_of_abort self o h with h | h | h | h <;>
      simp [h, BridgeCall.isRegisterEv]

/-- C18 as amended, at a concrete run: the lookup of the `onInsert` event fails and
`register` is still called for `onRemove`. -/
theorem registration_attempts_of_initialFill_witness :
    BridgeCall.register EvName.onRemove true ∈
        (initialFill (some exampleSelf)
          { okFill with onInsert := { okReg with event := false } }).2 :=
  (((registration_attempts_of_initialFill (some exampleSelf)
      { okFill with onInsert := { okReg with event := false } }).1
    ⟨exampleSelf, ([20, 21], false), rfl, rfl, rfl, rfl, rfl⟩).2
      EvName.onRemove rfl rfl).2 rfl

/-- C15, evaluated where the code departs from it: on a fresh row, with a factory that
returns control 7, a failing `_buildControlObject_pre` (first two lines) or a failing
`_buildControlObject_post` (last two lines) leaves the row holding control 7, and a
second `setupControl` call does not call the factory or a hook again: it only reads
the size, sets it and lays out the control that was never fully built. -/
theorem setupControl_keeps_control_after_failed_hook :
    ((ListItem.new 11).setupControl (fixedCollab (some 7) false true true ⟨100, 30⟩) 300 1
        { world := (), calls := [] }).1.control = some 7 ∧
    (((ListItem.new 11).setupControl (fixedCollab (some 7) false true true ⟨100, 30⟩) 300 1
        { world := (), calls := [] }).1.setupControl
        (fixedCollab (some 7) false true true ⟨100, 30⟩) 300 1
        { world := (), calls := [] }).2.calls
      = [Call.get_size 7, Call.set_size 7 { x := 300, y := 30 }, Call.layout 7] ∧
    ((ListItem.new 11).setupControl (fixedCollab (some 7) true false true ⟨100, 30⟩) 300 1
        { world := (), calls := [] }).1.control = some 7 ∧
    (((ListItem.new 11).setupControl (fixedCollab (some 7) true false true ⟨100, 30⟩) 300 1
        { world := (), calls := [] }).1.setupControl
        (fixedCollab (some 7) true false true ⟨100, 30⟩) 300 1
        { world := (), calls := [] }).2.calls
      = [Call.get_size 7, Call.set_size 7 { x := 300, y := 30 }, Call.layout 7] := by
  decide

/-! ## C7: the bulk copy of the bridge -/

theorem run_pushBack_eq_copyLoop (m : ListModel) (xs : List PyObject) :
    m.run (xs.map Op.pushBack) = (copyLoop m xs).1 := by
  induction xs generalizing m with
  | nil => rfl
  | cons x rest ih =>
    simp only [List.map_cons, ListModel.run, List.foldl_cons, ListModel.applyOp, copyLoop]
    exact ih (m.push_back x).1

theorem fillLoopCalls_storeOps (xs : List PyObject) :
    (fillLoopCalls xs).filterMap BridgeCall.asStoreOp = xs.map Op.pushBack := by
  induction xs with
  | nil => rfl
  | cons x rest ih => simp [fillLoopCalls, BridgeCall.asStoreOp, ih]

theorem fillLoopCalls_eq_flatMap (xs : List PyObject) :
    fillLoopCalls xs
      = xs.flatMap (fun x => [BridgeCall.iterNext (some x), BridgeCall.storeOp (Op.pushBack x)])
        ++ [BridgeCall.iterNext none] := by
  induction xs with
  | nil => rfl
  | cons x rest ih => simp [fillLoopCalls, ih]

theorem registerEv_storeOps (evName : EvName) (r : RegOutcome) :
    (registerEv evName r).filterMap BridgeCall.asStoreOp = [] := by
  rcases r with ⟨control, w, ev, rs, sa⟩
  cases control <;> cases w <;> cases ev <;> cases rs <;>
    simp [registerEv, BridgeCall.asStoreOp]

/-- C7: in every run of the initial fill task that reaches the copy loop on an empty
store, with `xs` the items the iterator yields (whether or not the iteration ends
with an error, and whatever the registrations do), the store the task leaves reads
`xs` in the same order.  The calls of the loop are, for each item of `xs` in turn,
its `PyIter_Next` followed by its marshaled `push_back`, then the final `PyIter_Next`;
the marshaled store operations of the whole task are exactly `push_back` of each
item of `xs` in order, and replaying them on the initial store gives the store the
task leaves; and at every position `k` the store first reads the first `k` items and
the copy continues from there, so item `k` is pushed only after the items before it. -/
theorem initialFill_copies_subject_in_order (st : ListWidgetState) (o : FillOutcome)
    (xs : List PyObject) (err : Bool) (hl : o.list = true) (hk : o.lock = true)
    (he : o.lockEnterRes = true) (hi : o.listIter = some (xs, err))
    (h0 : st.listModel.items = []) :
    ∃ st1, (initialFill (some st) o).1 = some st1 ∧
      st1.listModel.items.map ListItem.subjectObject = xs ∧
      st1.listModel.listWidget = st.listModel.listWidget ∧
      st1.autoScrolldown = st.autoScrolldown ∧
      (∃ rest, (initialFill (some st) o).2
        = [BridgeCall.getAttrLock true, BridgeCall.lockEnter true, BridgeCall.getIter true]
          ++ xs.flatMap (fun x =>
              [BridgeCall.iterNext (some x), BridgeCall.storeOp (Op.pushBack x)])
          ++ [BridgeCall.iterNext none] ++ rest ∧
        rest.filterMap BridgeCall.asStoreOp = []) ∧
      (initialFill (some st) o).2.filterMap BridgeCall.asStoreOp = xs.map Op.pushBack ∧
      st1.listModel
        = st.listModel.run ((initialFill (some st) o).2.filterMap BridgeCall.asStoreOp) ∧
      (∀ k : Nat,
        (copyLoop st.listModel (xs.take k)).1.items.map ListItem.subjectObject
          = xs.take k ∧
        st1.listModel = (copyLoop (copyLoop st.listModel (xs.take k)).1 (xs.drop k)).1) := by
  obtain ⟨body, hcalls, hbody, _⟩ := initialFill_calls_of_copy st o (xs, err) hl hk he hi
  have hst : (initialFill (some st) o).1
      = some { st with listModel := (copyLoop st.listModel xs).1 } := by
    simp [initialFill, hl, hk, he, hi]
  have hmap : ∀ ys : List PyObject,
      (copyLoop st.listModel ys).1.items.map ListItem.subjectObject = ys := by
    intro ys
    rw [copyLoop_items]
    simp [h0, ListItem.new, Function.comp_def]
  have hscroll : (if st.autoScrolldown then [BridgeCall.scrollToBottom false] else []).filterMap
      BridgeCall.asStoreOp = [] := by
    by_cases hs : st.autoScrolldown = true <;> simp [hs, BridgeCall.asStoreOp]
  have hops : (initialFill (some st) o).2.filterMap BridgeCall.asStoreOp
      = xs.map Op.pushBack := by
    rw [hcalls, hbody]
    simp [List.filterMap_append, List.filterMap_cons, BridgeCall.asStoreOp,
      fillLoopCalls_storeOps, registerEv_storeOps, hscroll]
  refine ⟨{ st with listModel := (copyLoop st.listModel xs).1 }, hst, hmap xs, ?_, rfl,
    ?_, hops, ?_, ?_⟩
  · show (copyLoop st.listModel xs).1.listWidget = st.listModel.listWidget
    rw [copyLoop_items]
  · refine ⟨(if st.autoScrolldown then [BridgeCall.scrollToBottom false] else [])
        ++ registerEv EvName.onInsert o.onInsert
        ++ registerEv EvName.onRemove o.onRemove
        ++ registerEv EvName.onClear o.onClear
        ++ [BridgeCall.lockExit o.lockExitRes], ?_, ?_⟩
    · rw [hcalls, hbody, fillLoopCalls_eq_flatMap]
      simp
    · simp [List.filterMap_append, BridgeCall.asStoreOp, registerEv_storeOps, hscroll]
  · show (copyLoop st.listModel xs).1 = _
    rw [hops, run_pushBack_eq_copyLoop]
  · intro k
    refine ⟨hmap _, ?_⟩
    show (copyLoop st.listModel xs).1 = _
    conv_lhs => rw [← List.take_append_drop k xs]
    rw [copyLoop_append]

/-- C7 at the input of the specification: a subject yielding the three items 30, 31,
32, copied into the empty store of a live list widget. -/
theorem initialFill_copies_subject_in_order_witness :
    ∃ st1, (initialFill (some exampleSelf)
        { okFill with listIter := some ([30, 31, 32], false) }).1 = some st1 ∧
      st1.listModel.items.map ListItem.subjectObject = [30, 31, 32] := by
  obtain ⟨st1, h1, h2, _⟩ := initialFill_copies_subject_in_order exampleSelf
    { okFill with listIter := some ([30, 31, 32], false) } [30, 31, 32] false
    rfl rfl rfl rfl rfl
  exact ⟨st1, h1, h2⟩

end QtListWidget
